import Mathlib

/-!
Verification of the XY2-100 High Level Analyzer (`src/HighLevelAnalyzer.py`).

The Python analyzer is shallowly embedded below:

* `Hla` mirrors the mutable fields set up in `Hla.__init__`;
* `Hla._decode_channel` mirrors the pure per-channel decoder;
* `Hla.decode` mirrors the per-event state-machine step, returning the
  updated state together with the optional list of output frames
  (`none` models Python's implicit `return None`);
* `runDecode` folds `Hla.decode` over an event list, collecting output.

Python integers are unbounded, so machine words are `ℕ` with the exact
shift/mask operations of the source.  Saleae timestamps support exact
subtraction and division by a scalar; they are modelled by `ℚ`.
-/

/-- Helper for `popcount`: structural recursion on a fuel argument
(any `fuel ≥ n` gives the true bit count, since `n / 2 < n`). -/
def popcountAux : ℕ → ℕ → ℕ
  | _, 0 => 0
  | 0, _ + 1 => 0
  | fuel + 1, n + 1 => (n + 1) % 2 + popcountAux fuel ((n + 1) / 2)

/-- Number of set bits in the binary representation of `n`: the embedding of
Python's `bin(n).count('1')`. -/
def popcount (n : ℕ) : ℕ := popcountAux n n

/-- The MSB-first accumulation loop
`for bit in bits: data_word = (data_word << 1) | bit`. -/
def dataWord (bits : List ℕ) : ℕ :=
  bits.foldl (fun data_word bit => (data_word <<< 1) ||| bit) 0

/-- Structured payload of an emitted `AnalyzerFrame`.  The Python source
stores string-formatted fields; the numeric values that those strings are
formatted from are recorded here. -/
inductive FrameData where
  | d18 (channel : String) (header : ℕ) (position : ℕ) (parity_ok : Bool)
  | d16 (channel : String) (header : ℕ) (position : ℕ) (parity_ok : Bool)
  | err (channel : String) (raw_header_bits : ℕ)
deriving DecidableEq

/-- An output frame produced by the analyzer (`AnalyzerFrame(...)` in the
source): a type tag, a time interval and the structured data payload. -/
structure AnalyzerFrame where
  type : String
  start_time : ℚ
  end_time : ℚ
  data : FrameData
deriving DecidableEq

/-- An input frame delivered by the host (`frame: AnalyzerFrame` argument of
`Hla.decode`): its type tag, its time interval, and the optional `'data'`
entry of its data dictionary (the parallel line value). -/
structure InputFrame where
  type : String
  start_time : ℚ
  end_time : ℚ
  data : Option ℕ
deriving DecidableEq

/-- The mutable analyzer state initialised in `Hla.__init__`. -/
structure Hla where
  state : String
  frame_start_time : Option ℚ
  prev_sync_bit : Option ℕ
  bits_x : List ℕ
  bits_y : List ℕ
  bits_z : List ℕ
deriving DecidableEq

/-- `Hla.__init__`. -/
def Hla.init : Hla :=
  { state := "IDLE", frame_start_time := none, prev_sync_bit := none,
    bits_x := [], bits_y := [], bits_z := [] }

/-- `Hla._decode_channel`: decode one channel's bit buffer into an output
frame (or `none`). -/
def Hla._decode_channel (channel_name : String) (bits : List ℕ)
    (start_time end_time : ℚ) : Option AnalyzerFrame :=
  if bits = [] then
    none
  else
    let data_word := dataWord bits
    if (data_word >>> 19) &&& 1 = 1 then
      -- Enhanced 18-bit mode (bit 19 == 1).
      let header := (data_word >>> 19) &&& 1
      let position := (data_word >>> 1) &&& 0x3FFFF
      let received_parity := data_word &&& 1
      let bits_for_parity_check := data_word >>> 1
      let num_set_bits := popcount bits_for_parity_check
      let expected_parity := if num_set_bits % 2 = 0 then 1 else 0  -- Odd parity
      let parity_ok := received_parity == expected_parity
      some { type := "xy2_100_18bit", start_time := start_time,
             end_time := end_time,
             data := FrameData.d18 channel_name header position parity_ok }
    else if (data_word >>> 17) &&& 7 = 1 then
      -- Standard 16-bit mode (bits 19,18,17 == 001).
      let header := (data_word >>> 17) &&& 7
      let position := (data_word >>> 1) &&& 0xFFFF
      let received_parity := data_word &&& 1
      let bits_for_parity_check := data_word >>> 1
      let num_set_bits := popcount bits_for_parity_check
      let expected_parity := if num_set_bits % 2 ≠ 0 then 1 else 0  -- Even parity
      let parity_ok := received_parity == expected_parity
      some { type := "xy2_100_16bit", start_time := start_time,
             end_time := end_time,
             data := FrameData.d16 channel_name header position parity_ok }
    else
      if data_word ≠ 0 then
        some { type := "error", start_time := start_time,
               end_time := end_time,
               data := FrameData.err channel_name (data_word >>> 17) }
      else
        none

/-- `Hla.decode`: process one input frame, returning the updated state and
(optionally) a list of output frames. -/
def Hla.decode (self : Hla) (frame : InputFrame) :
    Hla × Option (List AnalyzerFrame) :=
  if frame.type ≠ "data" then
    (self, none)
  else
    match frame.data with
    | none => (self, none)
    | some parallel_value =>
      -- D0: X, D1: Y, D2: Z, D3: SYNC
      let x_bit := (parallel_value >>> 0) &&& 1
      let y_bit := (parallel_value >>> 1) &&& 1
      let z_bit := (parallel_value >>> 2) &&& 1
      let sync_bit := (parallel_value >>> 3) &&& 1
      match self.prev_sync_bit with
      | none => ({ self with prev_sync_bit := some sync_bit }, none)
      | some prev_sync_bit =>
        if self.state = "IDLE" then
          if sync_bit = 1 ∧ prev_sync_bit = 0 then
            ({ self with
                state := "COLLECTING"
                bits_x := [x_bit]
                bits_y := [y_bit]
                bits_z := [z_bit]
                frame_start_time := some frame.start_time
                prev_sync_bit := some sync_bit }, none)
          else
            ({ self with prev_sync_bit := some sync_bit }, none)
        else if self.state = "COLLECTING" then
          let bits_x := self.bits_x ++ [x_bit]
          let bits_y := self.bits_y ++ [y_bit]
          let bits_z := self.bits_z ++ [z_bit]
          if bits_x.length = 20 then
            let frame_end_time := frame.end_time
            let frame_start := self.frame_start_time.getD 0
            let duration := frame_end_time - frame_start
            let num_channels : ℚ := 3
            let duration_per_channel := duration / num_channels
            let x_start := frame_start
            let x_end := x_start + duration_per_channel
            let y_start := x_end
            let y_end := y_start + duration_per_channel
            let z_start := y_end
            let z_end := frame_end_time
            let x_frame := Hla._decode_channel ("X") bits_x x_start x_end
            let y_frame := Hla._decode_channel ("Y") bits_y y_start y_end
            let z_frame := Hla._decode_channel ("Z") bits_z z_start z_end
            let output_frames := x_frame.toList ++ y_frame.toList ++ z_frame.toList
            ({ self with
                state := "IDLE"
                bits_x := []
                bits_y := []
                bits_z := []
                prev_sync_bit := some sync_bit }, some output_frames)
          else
            ({ self with
                bits_x := bits_x
                bits_y := bits_y
                bits_z := bits_z
                prev_sync_bit := some sync_bit }, none)
        else
          ({ self with prev_sync_bit := some sync_bit }, none)

/-- Drive the analyzer over a list of input frames, concatenating all
emitted output frames in order. -/
def runDecode : Hla → List InputFrame → Hla × List AnalyzerFrame
  | self, [] => (self, [])
  | self, e :: es =>
    let step := Hla.decode self e
    let rest := runDecode step.1 es
    (rest.1, step.2.getD [] ++ rest.2)

/-! ## Arithmetic bridges between bitwise operators and `/`, `%` -/

theorem two_mul_lor_one (w : ℕ) : 2 * w ||| 1 = 2 * w + 1 := by
  apply Nat.eq_of_testBit_eq
  intro i
  cases i with
  | zero =>
    rw [Nat.testBit_lor]
    have e1 : 2 * w % 2 = 0 := by omega
    have e2 : (2 * w + 1) % 2 = 1 := by omega
    simp [Nat.testBit_zero, e1, e2]
  | succ j =>
    have h1 : (1 : ℕ) / 2 = 0 := by omega
    have h2 : (2 * w + 1) / 2 = w := by omega
    have h3 : 2 * w / 2 = w := by omega
    rw [Nat.testBit_lor, Nat.testBit_succ, h3, Nat.testBit_succ, h1,
      Nat.testBit_succ, h2]
    simp

theorem shiftLeft_lor_bit (w b : ℕ) (hb : b ≤ 1) :
    (w <<< 1) ||| b = 2 * w + b := by
  interval_cases b
  · simp [Nat.shiftLeft_eq]; ring
  · rw [Nat.shiftLeft_eq, pow_one, mul_comm]
    exact two_mul_lor_one w

theorem dataWord_nil : dataWord [] = 0 := rfl

theorem dataWord_append (bits : List ℕ) (b : ℕ) (hb : b ≤ 1) :
    dataWord (bits ++ [b]) = 2 * dataWord bits + b := by
  unfold dataWord
  rw [List.foldl_append]
  simp only [List.foldl_cons, List.foldl_nil]
  exact shiftLeft_lor_bit _ b hb

theorem dataWord_lt (bits : List ℕ) (hb : ∀ x ∈ bits, x ≤ 1) :
    dataWord bits < 2 ^ bits.length := by
  induction bits using List.reverseRecOn with
  | nil => simp [dataWord_nil]
  | append_singleton l a ih =>
    have ha : a ≤ 1 := hb a (by simp)
    have hl : ∀ x ∈ l, x ≤ 1 := fun x hx => hb x (by simp [hx])
    have := ih hl
    rw [dataWord_append l a ha]
    simp only [List.length_append, List.length_singleton]
    have : 2 ^ (l.length + 1) = 2 * 2 ^ l.length := by ring
    omega

theorem and_seven (n : ℕ) : n &&& 7 = n % 8 := by
  have h : (7 : ℕ) = 2 ^ 3 - 1 := by norm_num
  rw [h, Nat.and_pow_two_sub_one_eq_mod]

theorem and_mask18 (n : ℕ) : n &&& 0x3FFFF = n % 2 ^ 18 := by
  have h : (0x3FFFF : ℕ) = 2 ^ 18 - 1 := by norm_num
  rw [h, Nat.and_pow_two_sub_one_eq_mod]

theorem and_mask16 (n : ℕ) : n &&& 0xFFFF = n % 2 ^ 16 := by
  have h : (0xFFFF : ℕ) = 2 ^ 16 - 1 := by norm_num
  rw [h, Nat.and_pow_two_sub_one_eq_mod]

/-- `Hla._decode_channel` written with `/` and `%` in place of shifts and
masks: the form used by the classification and parity theorems below. -/
theorem decode_channel_eq (c : String) (bits : List ℕ) (a b : ℚ)
    (h : bits ≠ []) :
    Hla._decode_channel c bits a b =
      (if dataWord bits / 2 ^ 19 % 2 = 1 then
        some { type := "xy2_100_18bit", start_time := a, end_time := b,
               data := FrameData.d18 c (dataWord bits / 2 ^ 19 % 2)
                 (dataWord bits / 2 % 2 ^ 18)
                 (dataWord bits % 2 ==
                   if popcount (dataWord bits / 2) % 2 = 0 then 1 else 0) }
      else if dataWord bits / 2 ^ 17 % 8 = 1 then
        some { type := "xy2_100_16bit", start_time := a, end_time := b,
               data := FrameData.d16 c (dataWord bits / 2 ^ 17 % 8)
                 (dataWord bits / 2 % 2 ^ 16)
                 (dataWord bits % 2 ==
                   if popcount (dataWord bits / 2) % 2 ≠ 0 then 1 else 0) }
      else if dataWord bits ≠ 0 then
        some { type := "error", start_time := a, end_time := b,
               data := FrameData.err c (dataWord bits / 2 ^ 17) }
      else none) := by
  unfold Hla._decode_channel
  rw [if_neg h]
  simp only [Nat.shiftRight_eq_div_pow, Nat.and_one_is_mod, and_seven,
    and_mask18, and_mask16, pow_one]

/-! ## Step lemmas for `Hla.decode` -/

theorem decode_nondata (s : Hla) (e : InputFrame)
    (h : e.type ≠ "data" ∨ e.data = none) :
    Hla.decode s e = (s, none) := by
  unfold Hla.decode
  rcases h with h | h
  · rw [if_pos h]
  · by_cases ht : e.type ≠ "data"
    · rw [if_pos ht]
    · rw [if_neg ht, h]

theorem decode_first (s : Hla) (e : InputFrame) (v : ℕ)
    (ht : e.type = "data") (hd : e.data = some v)
    (hp : s.prev_sync_bit = none) :
    Hla.decode s e =
      ({ s with prev_sync_bit := some ((v >>> 3) &&& 1) }, none) := by
  unfold Hla.decode
  rw [if_neg (by simp [ht]), hd, hp]

theorem decode_idle_trigger (s : Hla) (e : InputFrame) (v p : ℕ)
    (ht : e.type = "data") (hd : e.data = some v)
    (hp : s.prev_sync_bit = some p) (hs : s.state = "IDLE")
    (hr : (v >>> 3) &&& 1 = 1 ∧ p = 0) :
    Hla.decode s e =
      ({ s with
          state := "COLLECTING"
          bits_x := [(v >>> 0) &&& 1]
          bits_y := [(v >>> 1) &&& 1]
          bits_z := [(v >>> 2) &&& 1]
          frame_start_time := some e.start_time
          prev_sync_bit := some ((v >>> 3) &&& 1) }, none) := by
  unfold Hla.decode
  rw [if_neg (by simp [ht]), hd, hp]
  simp [hs, hr]

theorem decode_idle_stay (s : Hla) (e : InputFrame) (v p : ℕ)
    (ht : e.type = "data") (hd : e.data = some v)
    (hp : s.prev_sync_bit = some p) (hs : s.state = "IDLE")
    (hr : ¬((v >>> 3) &&& 1 = 1 ∧ p = 0)) :
    Hla.decode s e =
      ({ s with prev_sync_bit := some ((v >>> 3) &&& 1) }, none) := by
  unfold Hla.decode
  rw [if_neg (by simp [ht]), hd, hp]
  simp [hs, hr]
  intro h1 h0
  exact hr ⟨by rw [Nat.and_one_is_mod]; exact h1, h0⟩

theorem decode_collect_grow (s : Hla) (e : InputFrame) (v p : ℕ)
    (ht : e.type = "data") (hd : e.data = some v)
    (hp : s.prev_sync_bit = some p) (hs : s.state = "COLLECTING")
    (hn : s.bits_x.length + 1 ≠ 20) :
    Hla.decode s e =
      ({ s with
          bits_x := s.bits_x ++ [(v >>> 0) &&& 1]
          bits_y := s.bits_y ++ [(v >>> 1) &&& 1]
          bits_z := s.bits_z ++ [(v >>> 2) &&& 1]
          prev_sync_bit := some ((v >>> 3) &&& 1) }, none) := by
  unfold Hla.decode
  rw [if_neg (by simp [ht]), hd, hp]
  simp [hs, hn]

theorem decode_collect_done (s : Hla) (e : InputFrame) (v p : ℕ)
    (ht : e.type = "data") (hd : e.data = some v)
    (hp : s.prev_sync_bit = some p) (hs : s.state = "COLLECTING")
    (hn : s.bits_x.length + 1 = 20) :
    Hla.decode s e =
      ({ s with
          state := "IDLE"
          bits_x := []
          bits_y := []
          bits_z := []
          prev_sync_bit := some ((v >>> 3) &&& 1) },
       some
        ((Hla._decode_channel ("X") (s.bits_x ++ [(v >>> 0) &&& 1])
            (s.frame_start_time.getD 0)
            (s.frame_start_time.getD 0 +
              (e.end_time - s.frame_start_time.getD 0) / 3)).toList ++
         (Hla._decode_channel ("Y") (s.bits_y ++ [(v >>> 1) &&& 1])
            (s.frame_start_time.getD 0 +
              (e.end_time - s.frame_start_time.getD 0) / 3)
            (s.frame_start_time.getD 0 +
              (e.end_time - s.frame_start_time.getD 0) / 3 +
              (e.end_time - s.frame_start_time.getD 0) / 3)).toList ++
         (Hla._decode_channel ("Z") (s.bits_z ++ [(v >>> 2) &&& 1])
            (s.frame_start_time.getD 0 +
              (e.end_time - s.frame_start_time.getD 0) / 3 +
              (e.end_time - s.frame_start_time.getD 0) / 3)
            e.end_time).toList)) := by
  unfold Hla.decode
  rw [if_neg (by simp [ht]), hd, hp]
  simp [hs, hn]

theorem runDecode_nil (s : Hla) : runDecode s [] = (s, []) := rfl

theorem runDecode_cons (s : Hla) (e : InputFrame) (es : List InputFrame) :
    runDecode s (e :: es) =
      ((runDecode (Hla.decode s e).1 es).1,
       (Hla.decode s e).2.getD [] ++ (runDecode (Hla.decode s e).1 es).2) := rfl

/-! ## Branch characterizations of `Hla._decode_channel` -/

theorem div19_eq (w : ℕ) : w / 2 ^ 19 = w / 2 ^ 17 / 4 := by
  rw [Nat.div_div_eq_div_mul]; norm_num

theorem dc_branch18 (c : String) (bits : List ℕ) (a b : ℚ)
    (hne : bits ≠ []) (hA : dataWord bits / 2 ^ 19 % 2 = 1) :
    Hla._decode_channel c bits a b =
      some ⟨"xy2_100_18bit", a, b,
        FrameData.d18 c (dataWord bits / 2 ^ 19 % 2)
          (dataWord bits / 2 % 2 ^ 18)
          (dataWord bits % 2 ==
            if popcount (dataWord bits / 2) % 2 = 0 then 1 else 0)⟩ := by
  rw [decode_channel_eq c bits a b hne, if_pos hA]

theorem dc_branch16 (c : String) (bits : List ℕ) (a b : ℚ)
    (hne : bits ≠ []) (hB : dataWord bits / 2 ^ 17 % 8 = 1) :
    Hla._decode_channel c bits a b =
      some ⟨"xy2_100_16bit", a, b,
        FrameData.d16 c (dataWord bits / 2 ^ 17 % 8)
          (dataWord bits / 2 % 2 ^ 16)
          (dataWord bits % 2 ==
            if popcount (dataWord bits / 2) % 2 ≠ 0 then 1 else 0)⟩ := by
  have hA : ¬ dataWord bits / 2 ^ 19 % 2 = 1 := by
    rw [div19_eq]; omega
  rw [decode_channel_eq c bits a b hne, if_neg hA, if_pos hB]

theorem dc_branch_err (c : String) (bits : List ℕ) (a b : ℚ)
    (hne : bits ≠ []) (hA : dataWord bits / 2 ^ 19 % 2 ≠ 1)
    (hB : dataWord bits / 2 ^ 17 % 8 ≠ 1) (hZ : dataWord bits ≠ 0) :
    Hla._decode_channel c bits a b =
      some ⟨"error", a, b, FrameData.err c (dataWord bits / 2 ^ 17)⟩ := by
  rw [decode_channel_eq c bits a b hne, if_neg hA, if_neg hB, if_pos hZ]

theorem dc_branch_none (c : String) (bits : List ℕ) (a b : ℚ)
    (hne : bits ≠ []) (hZ : dataWord bits = 0) :
    Hla._decode_channel c bits a b = none := by
  have hA : ¬ dataWord bits / 2 ^ 19 % 2 = 1 := by omega
  have hB : ¬ dataWord bits / 2 ^ 17 % 8 = 1 := by omega
  rw [decode_channel_eq c bits a b hne, if_neg hA, if_neg hB,
    if_neg (by omega)]

/-- Tag of a per-channel decode result:
`0` = silently dropped, `1` = Valid18, `2` = Valid16, `3` = Invalid. -/
def resultTag : Option AnalyzerFrame → ℕ
  | none => 0
  | some f =>
    if f.type = "xy2_100_18bit" then 1
    else if f.type = "xy2_100_16bit" then 2
    else 3

/-- The classification tag is a function of bits 19..17 of the word and of
whether the word is zero. -/
theorem resultTag_eq (c : String) (bits : List ℕ) (a b : ℚ)
    (hlen : bits.length = 20) (hb : ∀ x ∈ bits, x ≤ 1) :
    resultTag (Hla._decode_channel c bits a b) =
      (if dataWord bits / 2 ^ 17 % 8 ≥ 4 then 1
       else if dataWord bits / 2 ^ 17 % 8 = 1 then 2
       else if dataWord bits = 0 then 0 else 3) := by
  have hne : bits ≠ [] := by
    intro h; rw [h] at hlen; simp at hlen
  have hw : dataWord bits < 2 ^ 20 := by
    have := dataWord_lt bits hb; rwa [hlen] at this
  have hdiv : dataWord bits / 2 ^ 19 = dataWord bits / 2 ^ 17 / 4 := div19_eq _
  have hlt8 : dataWord bits / 2 ^ 17 < 8 := by omega
  by_cases hA : dataWord bits / 2 ^ 19 % 2 = 1
  · rw [dc_branch18 c bits a b hne hA]
    have h4 : dataWord bits / 2 ^ 17 % 8 ≥ 4 := by omega
    rw [if_pos h4]; rfl
  · have h4 : ¬ dataWord bits / 2 ^ 17 % 8 ≥ 4 := by omega
    rw [if_neg h4]
    by_cases hB : dataWord bits / 2 ^ 17 % 8 = 1
    · rw [dc_branch16 c bits a b hne hB, if_pos hB]; rfl
    · rw [if_neg hB]
      by_cases hZ : dataWord bits = 0
      · rw [dc_branch_none c bits a b hne hZ, if_pos hZ]; rfl
      · rw [dc_branch_err c bits a b hne hA hB hZ, if_neg hZ]; rfl

/-! ## C1: classification is total, mutually exclusive, and header-determined -/

/-- C1: for every completed 20-bit word, the classification is total and
mutually exclusive — exactly one of {Valid18, Valid16, Invalid,
silently-dropped} results — with Valid18 iff bit 19 = 1, Valid16 iff
bits 19..17 = 0b001, dropped iff the word is zero, Invalid otherwise; and
the outcome is determined solely by bits 19..17 together with full-word
equality to zero. -/
theorem c1_classification_total (c : String) (bits : List ℕ) (a b : ℚ)
    (hlen : bits.length = 20) (hb : ∀ x ∈ bits, x ≤ 1) :
    ((∃ f, Hla._decode_channel c bits a b = some f ∧
        f.type = "xy2_100_18bit") ↔ dataWord bits / 2 ^ 19 % 2 = 1) ∧
    ((∃ f, Hla._decode_channel c bits a b = some f ∧
        f.type = "xy2_100_16bit") ↔ dataWord bits / 2 ^ 17 % 8 = 1) ∧
    ((∃ f, Hla._decode_channel c bits a b = some f ∧
        f.type = "error") ↔
      (dataWord bits / 2 ^ 19 % 2 ≠ 1 ∧ dataWord bits / 2 ^ 17 % 8 ≠ 1 ∧
        dataWord bits ≠ 0)) ∧
    (Hla._decode_channel c bits a b = none ↔ dataWord bits = 0) ∧
    ¬(dataWord bits / 2 ^ 19 % 2 = 1 ∧ dataWord bits / 2 ^ 17 % 8 = 1) ∧
    ¬(dataWord bits / 2 ^ 19 % 2 = 1 ∧ dataWord bits = 0) ∧
    ¬(dataWord bits / 2 ^ 17 % 8 = 1 ∧ dataWord bits = 0) ∧
    (∀ (c' : String) (bits' : List ℕ) (a' b' : ℚ),
      bits'.length = 20 → (∀ x ∈ bits', x ≤ 1) →
      dataWord bits' / 2 ^ 17 % 8 = dataWord bits / 2 ^ 17 % 8 →
      (dataWord bits' = 0 ↔ dataWord bits = 0) →
      resultTag (Hla._decode_channel c' bits' a' b') =
        resultTag (Hla._decode_channel c bits a b)) := by
  have hne : bits ≠ [] := by intro h; rw [h] at hlen; simp at hlen
  have hw : dataWord bits < 2 ^ 20 := by
    have := dataWord_lt bits hb; rwa [hlen] at this
  have hdiv : dataWord bits / 2 ^ 19 = dataWord bits / 2 ^ 17 / 4 := div19_eq _
  have hdet : ∀ (c' : String) (bits' : List ℕ) (a' b' : ℚ),
      bits'.length = 20 → (∀ x ∈ bits', x ≤ 1) →
      dataWord bits' / 2 ^ 17 % 8 = dataWord bits / 2 ^ 17 % 8 →
      (dataWord bits' = 0 ↔ dataWord bits = 0) →
      resultTag (Hla._decode_channel c' bits' a' b') =
        resultTag (Hla._decode_channel c bits a b) := by
    intro c' bits' a' b' hlen' hb' h8 hziff
    rw [resultTag_eq c' bits' a' b' hlen' hb',
      resultTag_eq c bits a b hlen hb, h8]
    exact if_congr Iff.rfl rfl (if_congr Iff.rfl rfl (if_congr hziff rfl rfl))
  by_cases hA : dataWord bits / 2 ^ 19 % 2 = 1
  · have hB : dataWord bits / 2 ^ 17 % 8 ≠ 1 := by omega
    have hZ : dataWord bits ≠ 0 := by omega
    refine ⟨?_, ?_, ?_, ?_, by omega, by omega, by omega, hdet⟩
    · rw [dc_branch18 c bits a b hne hA]; simp [hA]; omega
    · rw [dc_branch18 c bits a b hne hA]; simp [hB]; omega
    · rw [dc_branch18 c bits a b hne hA]; simp [hA]; omega
    · rw [dc_branch18 c bits a b hne hA]; simp [hZ]
  · by_cases hB : dataWord bits / 2 ^ 17 % 8 = 1
    · have hZ : dataWord bits ≠ 0 := by omega
      refine ⟨?_, ?_, ?_, ?_, by omega, by omega, by omega, hdet⟩
      · rw [dc_branch16 c bits a b hne hB]; simp [hA]; omega
      · rw [dc_branch16 c bits a b hne hB]; simp [hB]; omega
      · rw [dc_branch16 c bits a b hne hB]; simp [hB]; omega
      · rw [dc_branch16 c bits a b hne hB]; simp [hZ]
    · by_cases hZ : dataWord bits = 0
      · refine ⟨?_, ?_, ?_, ?_, by omega, by omega, by omega, hdet⟩
        · rw [dc_branch_none c bits a b hne hZ]; simp [hA]; omega
        · rw [dc_branch_none c bits a b hne hZ]; simp [hB]; omega
        · rw [dc_branch_none c bits a b hne hZ]; simp [hZ]
        · rw [dc_branch_none c bits a b hne hZ]; simp [hZ]
      · refine ⟨?_, ?_, ?_, ?_, by omega, by omega, by omega, hdet⟩
        · rw [dc_branch_err c bits a b hne hA hB hZ]; simp [hA]; omega
        · rw [dc_branch_err c bits a b hne hA hB hZ]; simp [hB]; omega
        · rw [dc_branch_err c bits a b hne hA hB hZ]; simp [hA, hB, hZ]; omega
        · rw [dc_branch_err c bits a b hne hA hB hZ]; simp [hZ]

/-- Spec scenario A: 16-bit word, header `001`, position `0x0014`, parity 0. -/
def bitsScenarioA : List ℕ :=
  [0, 0, 1, 0, 0, 0, 0, 0, 0, 0, 0, 0, 0, 0, 1, 0, 1, 0, 0, 0]

/-- Witness for C1: scenario A is classified Valid16. -/
theorem c1_classification_total_witness :
    ∃ f, Hla._decode_channel ("X") bitsScenarioA 0 1 = some f ∧
      f.type = "xy2_100_16bit" :=
  (c1_classification_total ("X") bitsScenarioA 0 1 (by decide)
    (by decide)).2.1.mpr (by decide)

/-! ## C2: field extraction and parity rules of both modes -/

/-- C2: in 18-bit mode (bit 19 = 1) the decoder extracts header = bit 19,
position = bits 18..1, received parity = bit 0 and expects odd parity
(expected 1 iff popcount of bits 19..1 is even); in 16-bit mode
(bits 19..17 = 0b001) it extracts header = bits 19..17, position =
bits 16..1, received parity = bit 0 and expects even parity (expected 1 iff
popcount of bits 19..1 is odd); in both modes `parity_ok` is the equality
of received and expected parity. -/
theorem c2_field_extraction (c : String) (bits : List ℕ) (a b : ℚ)
    (hlen : bits.length = 20) (_hb : ∀ x ∈ bits, x ≤ 1) :
    (dataWord bits / 2 ^ 19 % 2 = 1 →
      Hla._decode_channel c bits a b =
        some ⟨"xy2_100_18bit", a, b,
          FrameData.d18 c (dataWord bits / 2 ^ 19 % 2)
            (dataWord bits / 2 % 2 ^ 18)
            (dataWord bits % 2 ==
              if popcount (dataWord bits / 2) % 2 = 0 then 1 else 0)⟩) ∧
    (dataWord bits / 2 ^ 17 % 8 = 1 →
      Hla._decode_channel c bits a b =
        some ⟨"xy2_100_16bit", a, b,
          FrameData.d16 c (dataWord bits / 2 ^ 17 % 8)
            (dataWord bits / 2 % 2 ^ 16)
            (dataWord bits % 2 ==
              if popcount (dataWord bits / 2) % 2 ≠ 0 then 1 else 0)⟩) := by
  have hne : bits ≠ [] := by intro h; rw [h] at hlen; simp at hlen
  exact ⟨fun hA => dc_branch18 c bits a b hne hA,
    fun hB => dc_branch16 c bits a b hne hB⟩

/-- Spec scenario B variant: 18-bit word `1 000000000000000001 1`. -/
def bitsScenarioB : List ℕ :=
  [1, 0, 0, 0, 0, 0, 0, 0, 0, 0, 0, 0, 0, 0, 0, 0, 0, 0, 1, 1]

/-- Witness for C2: scenario B decodes to an 18-bit frame with header 1,
position 1 and passing parity. -/
theorem c2_field_extraction_witness :
    Hla._decode_channel ("X") bitsScenarioB 0 1 =
      some ⟨"xy2_100_18bit", 0, 1, FrameData.d18 ("X") 1 1 true⟩ := by
  have h := (c2_field_extraction ("X") bitsScenarioB 0 1 (by decide)
    (by decide)).1 (by decide)
  exact h.trans (by decide)

/-! ## C3: parity round-trip -/

/-- C3: constructing a word with the parity bit set by the mode's rule (odd
for 18-bit, even for 16-bit) decodes with `parity_ok = true`; flipping only
bit 0 decodes with `parity_ok = false` and identical classification, header
and position. -/
theorem c3_parity_roundtrip :
    (∀ (p : ℕ), p < 2 ^ 18 → ∀ (c : String) (a b : ℚ) (bitsG bitsB : List ℕ),
      bitsG ≠ [] → bitsB ≠ [] →
      dataWord bitsG =
        2 ^ 19 + 2 * p + (if popcount (2 ^ 18 + p) % 2 = 0 then 1 else 0) →
      dataWord bitsB =
        2 ^ 19 + 2 * p +
          (1 - (if popcount (2 ^ 18 + p) % 2 = 0 then 1 else 0)) →
      Hla._decode_channel c bitsG a b =
        some ⟨"xy2_100_18bit", a, b, FrameData.d18 c 1 p true⟩ ∧
      Hla._decode_channel c bitsB a b =
        some ⟨"xy2_100_18bit", a, b, FrameData.d18 c 1 p false⟩ ∧
      dataWord bitsG / 2 = dataWord bitsB / 2 ∧
      dataWord bitsG % 2 ≠ dataWord bitsB % 2) ∧
    (∀ (p : ℕ), p < 2 ^ 16 → ∀ (c : String) (a b : ℚ) (bitsG bitsB : List ℕ),
      bitsG ≠ [] → bitsB ≠ [] →
      dataWord bitsG =
        2 ^ 17 + 2 * p + (if popcount (2 ^ 16 + p) % 2 ≠ 0 then 1 else 0) →
      dataWord bitsB =
        2 ^ 17 + 2 * p +
          (1 - (if popcount (2 ^ 16 + p) % 2 ≠ 0 then 1 else 0)) →
      Hla._decode_channel c bitsG a b =
        some ⟨"xy2_100_16bit", a, b, FrameData.d16 c 1 p true⟩ ∧
      Hla._decode_channel c bitsB a b =
        some ⟨"xy2_100_16bit", a, b, FrameData.d16 c 1 p false⟩ ∧
      dataWord bitsG / 2 = dataWord bitsB / 2 ∧
      dataWord bitsG % 2 ≠ dataWord bitsB % 2) := by
  constructor
  · intro p hp c a b bitsG bitsB hneG hneB hG hB
    set E := (if popcount (2 ^ 18 + p) % 2 = 0 then (1 : ℕ) else 0) with hEdef
    have he : E ≤ 1 := by rw [hEdef]; split <;> omega
    have hA : dataWord bitsG / 2 ^ 19 % 2 = 1 := by omega
    have hdiv2 : dataWord bitsG / 2 = 2 ^ 18 + p := by omega
    have hposG : dataWord bitsG / 2 % 2 ^ 18 = p := by omega
    have hrecG : dataWord bitsG % 2 = E := by omega
    have hAB : dataWord bitsB / 2 ^ 19 % 2 = 1 := by omega
    have hdiv2B : dataWord bitsB / 2 = 2 ^ 18 + p := by omega
    have hposB : dataWord bitsB / 2 % 2 ^ 18 = p := by omega
    have hrecB : dataWord bitsB % 2 = 1 - E := by omega
    refine ⟨?_, ?_, by omega, by omega⟩
    · rw [dc_branch18 c bitsG a b hneG hA, hA, hposG, hdiv2, hrecG, ← hEdef]
      simp
    · rw [dc_branch18 c bitsB a b hneB hAB, hAB, hposB, hdiv2B, hrecB, ← hEdef]
      rcases (by omega : E = 0 ∨ E = 1) with h | h <;> rw [h] <;> simp
  · intro p hp c a b bitsG bitsB hneG hneB hG hB
    set E := (if popcount (2 ^ 16 + p) % 2 ≠ 0 then (1 : ℕ) else 0) with hEdef
    have he : E ≤ 1 := by rw [hEdef]; split <;> omega
    have hA : dataWord bitsG / 2 ^ 17 % 8 = 1 := by omega
    have hdiv2 : dataWord bitsG / 2 = 2 ^ 16 + p := by omega
    have hposG : dataWord bitsG / 2 % 2 ^ 16 = p := by omega
    have hrecG : dataWord bitsG % 2 = E := by omega
    have hAB : dataWord bitsB / 2 ^ 17 % 8 = 1 := by omega
    have hdiv2B : dataWord bitsB / 2 = 2 ^ 16 + p := by omega
    have hposB : dataWord bitsB / 2 % 2 ^ 16 = p := by omega
    have hrecB : dataWord bitsB % 2 = 1 - E := by omega
    refine ⟨?_, ?_, by omega, by omega⟩
    · rw [dc_branch16 c bitsG a b hneG hA, hA, hposG, hdiv2, hrecG, ← hEdef]
      simp
    · rw [dc_branch16 c bitsB a b hneB hAB, hAB, hposB, hdiv2B, hrecB, ← hEdef]
      rcases (by omega : E = 0 ∨ E = 1) with h | h <;> rw [h] <;> simp

/-- 18-bit word `p = 1` with correct odd parity (bit 0 = 1). -/
def bitsC3good : List ℕ :=
  [1, 0, 0, 0, 0, 0, 0, 0, 0, 0, 0, 0, 0, 0, 0, 0, 0, 0, 1, 1]

/-- `bitsC3good` with only the parity bit flipped. -/
def bitsC3bad : List ℕ :=
  [1, 0, 0, 0, 0, 0, 0, 0, 0, 0, 0, 0, 0, 0, 0, 0, 0, 0, 1, 0]

/-- Witness for C3 at `p = 1` in 18-bit mode. -/
theorem c3_parity_roundtrip_witness :
    Hla._decode_channel ("X") bitsC3good 0 1 =
      some ⟨"xy2_100_18bit", 0, 1, FrameData.d18 ("X") 1 1 true⟩ ∧
    Hla._decode_channel ("X") bitsC3bad 0 1 =
      some ⟨"xy2_100_18bit", 0, 1, FrameData.d18 ("X") 1 1 false⟩ := by
  have h := c3_parity_roundtrip.1 1 (by norm_num) ("X") 0 1 bitsC3good bitsC3bad
    (by decide) (by decide) (by decide) (by decide)
  exact ⟨h.1, h.2.1⟩

/-! ## C6: unrecognized headers -/

/-- C6: a completed word matching neither header pattern is silently dropped
when zero and otherwise produces exactly one Invalid record whose
`raw_header_bits` are bits 19..17; in either case the state machine
finishes the frame in `IDLE` and keeps decoding. -/
theorem c6_invalid_handling (c : String) (bits : List ℕ) (a b : ℚ)
    (hlen : bits.length = 20) (hb : ∀ x ∈ bits, x ≤ 1)
    (h19 : dataWord bits / 2 ^ 19 % 2 ≠ 1)
    (h17 : dataWord bits / 2 ^ 17 % 8 ≠ 1) :
    (dataWord bits = 0 → Hla._decode_channel c bits a b = none) ∧
    (dataWord bits ≠ 0 →
      Hla._decode_channel c bits a b =
        some ⟨"error", a, b, FrameData.err c (dataWord bits / 2 ^ 17)⟩ ∧
      dataWord bits / 2 ^ 17 = dataWord bits / 2 ^ 17 % 8) ∧
    (∀ (s : Hla) (e : InputFrame) (v p : ℕ),
      e.type = "data" → e.data = some v → s.prev_sync_bit = some p →
      s.state = "COLLECTING" → s.bits_x.length + 1 = 20 →
      (Hla.decode s e).1.state = "IDLE" ∧
      ((Hla.decode s e).2).isSome = true) := by
  have hne : bits ≠ [] := by intro h; rw [h] at hlen; simp at hlen
  have hw : dataWord bits < 2 ^ 20 := by
    have := dataWord_lt bits hb; rwa [hlen] at this
  refine ⟨fun hZ => dc_branch_none c bits a b hne hZ,
    fun hZ => ⟨dc_branch_err c bits a b hne h19 h17 hZ, by omega⟩, ?_⟩
  intro s e v p ht hd hp hs hn
  rw [decode_collect_done s e v p ht hd hp hs hn]
  exact ⟨rfl, rfl⟩

/-- Spec scenario C: header bits `010`, non-zero word. -/
def bitsScenarioC : List ℕ :=
  [0, 1, 0, 0, 0, 0, 0, 0, 0, 0, 0, 0, 0, 0, 0, 0, 0, 0, 0, 0]

/-- Witness for C6: scenario C yields an Invalid record with raw header
bits `0b010`; the all-zero word yields no record. -/
theorem c6_invalid_handling_witness :
    Hla._decode_channel ("X") bitsScenarioC 0 1 =
      some ⟨"error", 0, 1, FrameData.err ("X") 2⟩ ∧
    Hla._decode_channel ("Z") (List.replicate 20 0) 0 1 = none := by
  constructor
  · have h := (c6_invalid_handling ("X") bitsScenarioC 0 1 (by decide)
      (by decide) (by decide) (by decide)).2.1 (by decide)
    exact h.1.trans (by decide)
  · exact (c6_invalid_handling ("Z") (List.replicate 20 0) 0 1 (by decide)
      (by decide) (by decide) (by decide)).1 (by decide)

theorem decode_other (s : Hla) (e : InputFrame) (v p : ℕ)
    (ht : e.type = "data") (hd : e.data = some v)
    (hp : s.prev_sync_bit = some p)
    (hs1 : s.state ≠ "IDLE") (hs2 : s.state ≠ "COLLECTING") :
    Hla.decode s e =
      ({ s with prev_sync_bit := some ((v >>> 3) &&& 1) }, none) := by
  unfold Hla.decode
  rw [if_neg (by simp [ht]), hd, hp]
  simp [hs1, hs2]

/-! ## C9: non-data events are ignored -/

/-- C9: an event that is not a data sample, or carries no line-value field,
produces no output and leaves every state component unchanged. -/
theorem c9_nondata_ignored (s : Hla) (e : InputFrame)
    (h : e.type ≠ "data" ∨ e.data = none) :
    Hla.decode s e = (s, none) :=
  decode_nondata s e h

/-- Witness for C9: a data event without line values and a marker event
with line values are both ignored. -/
theorem c9_nondata_ignored_witness :
    Hla.decode Hla.init ⟨"data", 0, 1, none⟩ = (Hla.init, none) ∧
    Hla.decode Hla.init ⟨"marker", 0, 1, some 5⟩ = (Hla.init, none) :=
  ⟨c9_nondata_ignored Hla.init ⟨"data", 0, 1, none⟩ (Or.inr rfl),
   c9_nondata_ignored Hla.init ⟨"marker", 0, 1, some 5⟩ (Or.inl (by decide))⟩

/-! ## C8: `prev_sync_bit` baseline and tracking -/

/-- C8: the first data sample only establishes `prev_sync_bit` (no output,
no other state change); after every processed data event `prev_sync_bit`
equals that event's SYNC bit, unconditionally. -/
theorem c8_prev_sync_tracking (s : Hla) (e : InputFrame) (v : ℕ)
    (ht : e.type = "data") (hd : e.data = some v) :
    (s.prev_sync_bit = none →
      Hla.decode s e =
        ({ s with prev_sync_bit := some ((v >>> 3) &&& 1) }, none)) ∧
    (Hla.decode s e).1.prev_sync_bit = some ((v >>> 3) &&& 1) := by
  refine ⟨fun hp => decode_first s e v ht hd hp, ?_⟩
  rcases hcase : s.prev_sync_bit with _ | p
  · rw [decode_first s e v ht hd hcase]
  · by_cases hs : s.state = "IDLE"
    · by_cases hr : (v >>> 3) &&& 1 = 1 ∧ p = 0
      · rw [decode_idle_trigger s e v p ht hd hcase hs hr]
      · rw [decode_idle_stay s e v p ht hd hcase hs hr]
    · by_cases hc : s.state = "COLLECTING"
      · by_cases hn : s.bits_x.length + 1 = 20
        · rw [decode_collect_done s e v p ht hd hcase hc hn]
        · rw [decode_collect_grow s e v p ht hd hcase hc hn]
      · rw [decode_other s e v p ht hd hcase hs hc]

/-- Witness for C8: the very first data event only records the SYNC bit. -/
theorem c8_prev_sync_tracking_witness :
    Hla.decode Hla.init ⟨"data", 0, 1, some 9⟩ =
      ({ Hla.init with prev_sync_bit := some 1 }, none) ∧
    (Hla.decode Hla.init ⟨"data", 0, 1, some 9⟩).1.prev_sync_bit = some 1 := by
  have h := c8_prev_sync_tracking Hla.init ⟨"data", 0, 1, some 9⟩ 9 rfl rfl
  exact ⟨h.1 rfl, h.2⟩

/-! ## C7: SYNC-low samples in IDLE are a no-op -/

/-- C7: with the synchronizer in `IDLE` and the SYNC line already low (so
the inserted samples introduce no rising edge), inserting any number of
SYNC-low data samples changes neither the subsequent decoding output nor
the final state. -/
theorem c7_idle_resync (s : Hla) (hs : s.state = "IDLE")
    (hp : s.prev_sync_bit = some 0) (rest : List InputFrame) :
    ∀ (lows : List InputFrame),
      (∀ e ∈ lows, e.type = "data" ∧
        ∃ v, e.data = some v ∧ (v >>> 3) &&& 1 = 0) →
      runDecode s (lows ++ rest) = runDecode s rest := by
  intro lows
  induction lows with
  | nil => intro _; rfl
  | cons e es ih =>
    intro hl
    obtain ⟨ht, v, hd, hv⟩ := hl e (by simp)
    have hstep : Hla.decode s e = (s, none) := by
      have h := decode_idle_stay s e v 0 ht hd hp hs (by rw [hv]; simp)
      rw [hv] at h
      rw [h]
      have hss : ({ s with prev_sync_bit := some 0 } : Hla) = s := by
        cases s; simp_all
      rw [hss]
    rw [List.cons_append, runDecode_cons, hstep]
    simp only [Option.getD_none, List.nil_append]
    rw [ih (fun e' he' => hl e' (by simp [he']))]

/-- Witness for C7: two SYNC-low samples inserted ahead of a rising-edge
sample change nothing. -/
theorem c7_idle_resync_witness :
    runDecode ⟨"IDLE", none, some 0, [], [], []⟩
      ([⟨"data", 0, 1, some 0⟩, ⟨"data", 1, 2, some 7⟩] ++
        [⟨"data", 2, 3, some 8⟩]) =
    runDecode ⟨"IDLE", none, some 0, [], [], []⟩ [⟨"data", 2, 3, some 8⟩] :=
  c7_idle_resync ⟨"IDLE", none, some 0, [], [], []⟩ rfl rfl
    [⟨"data", 2, 3, some 8⟩]
    [⟨"data", 0, 1, some 0⟩, ⟨"data", 1, 2, some 7⟩]
    (by
      intro e he
      simp only [List.mem_cons, List.not_mem_nil, or_false] at he
      rcases he with rfl | rfl
      · exact ⟨rfl, 0, rfl, by decide⟩
      · exact ⟨rfl, 7, rfl, by decide⟩)

/-! ## C10: COLLECTING accumulates one bit per sample, SYNC-independently -/

/-- C10: while COLLECTING, each data event appends exactly one bit to each
of the three buffers (lock-step lengths preserved) until the 20th bit
completes the frame, and the SYNC bit has no effect on the buffers, the
state, the frame window or the output. -/
theorem c10_collecting_accumulation (s : Hla) (e : InputFrame) (v p : ℕ)
    (ht : e.type = "data") (hd : e.data = some v)
    (hp : s.prev_sync_bit = some p) (hs : s.state = "COLLECTING") :
    (s.bits_x.length + 1 ≠ 20 →
      Hla.decode s e =
        ({ s with
            bits_x := s.bits_x ++ [(v >>> 0) &&& 1]
            bits_y := s.bits_y ++ [(v >>> 1) &&& 1]
            bits_z := s.bits_z ++ [(v >>> 2) &&& 1]
            prev_sync_bit := some ((v >>> 3) &&& 1) }, none)) ∧
    (s.bits_x.length + 1 = 20 → ((Hla.decode s e).2).isSome = true) ∧
    (∀ (v' : ℕ), v' % 8 = v % 8 → ∀ (e' : InputFrame),
      e'.type = "data" → e'.data = some v' →
      e'.start_time = e.start_time → e'.end_time = e.end_time →
      (Hla.decode s e').1.bits_x = (Hla.decode s e).1.bits_x ∧
      (Hla.decode s e').1.bits_y = (Hla.decode s e).1.bits_y ∧
      (Hla.decode s e').1.bits_z = (Hla.decode s e).1.bits_z ∧
      (Hla.decode s e').1.state = (Hla.decode s e).1.state ∧
      (Hla.decode s e').1.frame_start_time =
        (Hla.decode s e).1.frame_start_time ∧
      (Hla.decode s e').2 = (Hla.decode s e).2) ∧
    (s.bits_x.length = s.bits_y.length → s.bits_y.length = s.bits_z.length →
      (Hla.decode s e).1.bits_x.length = (Hla.decode s e).1.bits_y.length ∧
      (Hla.decode s e).1.bits_y.length = (Hla.decode s e).1.bits_z.length) := by
  refine ⟨fun hn => decode_collect_grow s e v p ht hd hp hs hn, ?_, ?_, ?_⟩
  · intro hn
    rw [decode_collect_done s e v p ht hd hp hs hn]
    rfl
  · intro v' h8 e' ht' hd' he1 he2
    have hx : (v' >>> 0) &&& 1 = (v >>> 0) &&& 1 := by
      simp only [Nat.shiftRight_zero, Nat.and_one_is_mod]; omega
    have hy : (v' >>> 1) &&& 1 = (v >>> 1) &&& 1 := by
      simp only [Nat.shiftRight_eq_div_pow, Nat.and_one_is_mod, pow_one]
      omega
    have hz : (v' >>> 2) &&& 1 = (v >>> 2) &&& 1 := by
      simp only [Nat.shiftRight_eq_div_pow, Nat.and_one_is_mod]
      have h4 : (2 : ℕ) ^ 2 = 4 := by norm_num
      rw [h4]; omega
    by_cases hn : s.bits_x.length + 1 = 20
    · rw [decode_collect_done s e' v' p ht' hd' hp hs hn,
        decode_collect_done s e v p ht hd hp hs hn, hx, hy, hz, he2]
      exact ⟨rfl, rfl, rfl, rfl, rfl, rfl⟩
    · rw [decode_collect_grow s e' v' p ht' hd' hp hs hn,
        decode_collect_grow s e v p ht hd hp hs hn, hx, hy, hz]
      exact ⟨rfl, rfl, rfl, rfl, rfl, rfl⟩
  · intro hxy hyz
    by_cases hn : s.bits_x.length + 1 = 20
    · rw [decode_collect_done s e v p ht hd hp hs hn]
      exact ⟨rfl, rfl⟩
    · rw [decode_collect_grow s e v p ht hd hp hs hn]
      simp [hxy, hyz]

/-- Witness for C10: one COLLECTING step appends one bit per channel. -/
theorem c10_collecting_accumulation_witness :
    Hla.decode ⟨"COLLECTING", some 0, some 1, [1], [0], [0]⟩
      ⟨"data", 1, 2, some 15⟩ =
      (⟨"COLLECTING", some 0, some 1, [1, 1], [0, 1], [0, 1]⟩, none) := by
  have h := (c10_collecting_accumulation
    ⟨"COLLECTING", some 0, some 1, [1], [0], [0]⟩
    ⟨"data", 1, 2, some 15⟩ 15 1 rfl rfl rfl rfl).1 (by decide)
  exact h.trans (by decide)

/-! ## C5: timestamp partition across the three channels -/

/-- Channel name stored in a frame payload. -/
def FrameData.channel : FrameData → String
  | .d18 c _ _ _ => c
  | .d16 c _ _ _ => c
  | .err c _ => c

/-- Channel name of an output frame. -/
def AnalyzerFrame.channel (f : AnalyzerFrame) : String :=
  f.data.channel

/-- Whenever `_decode_channel` emits a frame, the frame carries the channel
name and exactly the start/end times it was called with. -/
theorem dc_channel_times (c : String) (bits : List ℕ) (a b : ℚ)
    (f : AnalyzerFrame) (h : Hla._decode_channel c bits a b = some f) :
    f.channel = c ∧ f.start_time = a ∧ f.end_time = b := by
  have hne : bits ≠ [] := by
    rintro rfl
    simp [Hla._decode_channel] at h
  rw [decode_channel_eq c bits a b hne] at h
  split_ifs at h <;>
    simp only [Option.some.injEq] at h <;>
    subst h <;>
    exact ⟨rfl, rfl, rfl⟩

/-- C5: a completed frame spanning `[t0, t3]` is partitioned among the
three emitted records in fixed order X, Y, Z: `X.start = t0`,
`X.end = Y.start`, `Y.end = Z.start`, `Z.end = t3`, and each sub-interval
lasts `(t3 - t0) / 3`. -/
theorem c5_timestamp_partition (s : Hla) (e : InputFrame) (v p : ℕ)
    (t0 t3 : ℚ) (ht : e.type = "data") (hd : e.data = some v)
    (hp : s.prev_sync_bit = some p) (hs : s.state = "COLLECTING")
    (hn : s.bits_x.length + 1 = 20)
    (ht0 : s.frame_start_time = some t0) (ht3 : e.end_time = t3)
    (outs : List AnalyzerFrame) (hout : (Hla.decode s e).2 = some outs)
    (fx fy fz : AnalyzerFrame)
    (hfx : fx ∈ outs) (hcx : fx.channel = "X")
    (hfy : fy ∈ outs) (hcy : fy.channel = "Y")
    (hfz : fz ∈ outs) (hcz : fz.channel = "Z") :
    fx.start_time = t0 ∧
    fx.end_time = fy.start_time ∧
    fy.end_time = fz.start_time ∧
    fz.end_time = t3 ∧
    fx.end_time - fx.start_time = (t3 - t0) / 3 ∧
    fy.end_time - fy.start_time = (t3 - t0) / 3 ∧
    fz.end_time - fz.start_time = (t3 - t0) / 3 := by
  rw [decode_collect_done s e v p ht hd hp hs hn, ht0, ht3] at hout
  simp only [Option.getD_some, Option.some.injEq] at hout
  subst hout
  simp only [List.mem_append, Option.mem_toList, Option.mem_def] at hfx hfy hfz
  rcases hfx with (hx | hx) | hx
  rotate_left
  · obtain ⟨hc, -, -⟩ := dc_channel_times _ _ _ _ fx hx
    rw [hc] at hcx; exact absurd hcx (by decide)
  · obtain ⟨hc, -, -⟩ := dc_channel_times _ _ _ _ fx hx
    rw [hc] at hcx; exact absurd hcx (by decide)
  rcases hfy with (hy | hy) | hy
  · obtain ⟨hc, -, -⟩ := dc_channel_times _ _ _ _ fy hy
    rw [hc] at hcy; exact absurd hcy (by decide)
  rotate_left
  · obtain ⟨hc, -, -⟩ := dc_channel_times _ _ _ _ fy hy
    rw [hc] at hcy; exact absurd hcy (by decide)
  rcases hfz with (hz | hz) | hz
  · obtain ⟨hc, -, -⟩ := dc_channel_times _ _ _ _ fz hz
    rw [hc] at hcz; exact absurd hcz (by decide)
  · obtain ⟨hc, -, -⟩ := dc_channel_times _ _ _ _ fz hz
    rw [hc] at hcz; exact absurd hcz (by decide)
  obtain ⟨-, hxs, hxe⟩ := dc_channel_times _ _ _ _ fx hx
  obtain ⟨-, hys, hye⟩ := dc_channel_times _ _ _ _ fy hy
  obtain ⟨-, hzs, hze⟩ := dc_channel_times _ _ _ _ fz hz
  refine ⟨hxs, ?_, ?_, hze, ?_, ?_, ?_⟩
  · rw [hxe, hys]
  · rw [hye, hzs]
  · rw [hxe, hxs]; ring
  · rw [hye, hys]; ring
  · rw [hze, hzs]; ring

/-- Concrete COLLECTING state one sample away from frame completion. -/
def c5s : Hla :=
  ⟨"COLLECTING", some 0, some 1, 1 :: List.replicate 18 0,
    1 :: List.replicate 18 0, 1 :: List.replicate 18 0⟩

/-- Frame-completing sample for `c5s`. -/
def c5e : InputFrame := ⟨"data", 2, 3, some 7⟩

/-- The X record emitted from `c5s` by `c5e`. -/
def c5fx : AnalyzerFrame := ⟨"xy2_100_18bit", 0, 1, FrameData.d18 ("X") 1 0 false⟩

/-- The Y record emitted from `c5s` by `c5e`. -/
def c5fy : AnalyzerFrame := ⟨"xy2_100_18bit", 1, 2, FrameData.d18 ("Y") 1 0 false⟩

/-- The Z record emitted from `c5s` by `c5e`. -/
def c5fz : AnalyzerFrame := ⟨"xy2_100_18bit", 2, 3, FrameData.d18 ("Z") 1 0 false⟩

/-- Witness for C5: a concrete frame over `[0, 3]` splits into `[0,1]`,
`[1,2]`, `[2,3]` for X, Y, Z. -/
theorem c5_timestamp_partition_witness :
    c5fx.start_time = 0 ∧
    c5fx.end_time = c5fy.start_time ∧
    c5fy.end_time = c5fz.start_time ∧
    c5fz.end_time = 3 ∧
    c5fx.end_time - c5fx.start_time = (3 - 0) / 3 ∧
    c5fy.end_time - c5fy.start_time = (3 - 0) / 3 ∧
    c5fz.end_time - c5fz.start_time = (3 - 0) / 3 := by
  have hout : (Hla.decode c5s c5e).2 = some [c5fx, c5fy, c5fz] := by
    rw [decode_collect_done c5s c5e 7 1 rfl rfl rfl rfl (by decide)]
    norm_num [c5s, c5e]
    rw [dc_branch18 ("X") (1 :: (List.replicate 18 0 ++ [1])) 0 1
        (by decide) (by decide),
      dc_branch18 ("Y") (1 :: (List.replicate 18 0 ++ [7 >>> 1 % 2])) 1 2
        (by decide) (by decide),
      dc_branch18 ("Z") (1 :: (List.replicate 18 0 ++ [7 >>> 2 % 2])) 2 3
        (by decide) (by decide)]
    decide
  exact c5_timestamp_partition c5s c5e 7 1 0 3 rfl rfl rfl rfl (by decide)
    rfl rfl [c5fx, c5fy, c5fz] hout c5fx c5fy c5fz (by decide) (by decide)
    (by decide) (by decide) (by decide) (by decide)

/-! ## C4: frames are exactly 20 samples; partial frames emit nothing -/

theorem runDecode_append (s : Hla) (l1 l2 : List InputFrame) :
    runDecode s (l1 ++ l2) =
      ((runDecode (runDecode s l1).1 l2).1,
       (runDecode s l1).2 ++ (runDecode (runDecode s l1).1 l2).2) := by
  induction l1 generalizing s with
  | nil => simp [runDecode]
  | cons e es ih =>
    rw [List.cons_append, runDecode_cons, ih, runDecode_cons]
    simp [List.append_assoc]

/-- Feeding `es` data samples to a COLLECTING state that stays strictly
below 20 bits emits nothing and simply appends one bit per sample to each
buffer. -/
theorem run_collect (es : List InputFrame) : ∀ (s : Hla),
    s.state = "COLLECTING" →
    (∀ e ∈ es, e.type = "data" ∧ ∃ v, e.data = some v) →
    (∃ q, s.prev_sync_bit = some q) →
    s.bits_x.length + es.length ≤ 19 →
    (runDecode s es).2 = [] ∧
    (runDecode s es).1.state = "COLLECTING" ∧
    (runDecode s es).1.bits_x =
      s.bits_x ++ es.map (fun e => ((e.data.getD 0) >>> 0) &&& 1) ∧
    (runDecode s es).1.bits_y =
      s.bits_y ++ es.map (fun e => ((e.data.getD 0) >>> 1) &&& 1) ∧
    (runDecode s es).1.bits_z =
      s.bits_z ++ es.map (fun e => ((e.data.getD 0) >>> 2) &&& 1) ∧
    (runDecode s es).1.frame_start_time = s.frame_start_time ∧
    (∃ q, (runDecode s es).1.prev_sync_bit = some q) := by
  induction es with
  | nil =>
    intro s h1 _ hq _
    exact ⟨rfl, h1, by simp [runDecode], by simp [runDecode],
      by simp [runDecode], rfl, hq⟩
  | cons e es ih =>
    intro s hs hd hq hlen
    obtain ⟨ht, v, hv⟩ := hd e (by simp)
    obtain ⟨q, hq⟩ := hq
    have hn : s.bits_x.length + 1 ≠ 20 := by
      simp only [List.length_cons] at hlen; omega
    rw [runDecode_cons, decode_collect_grow s e v q ht hv hq hs hn]
    have key := ih
      { s with
          bits_x := s.bits_x ++ [(v >>> 0) &&& 1]
          bits_y := s.bits_y ++ [(v >>> 1) &&& 1]
          bits_z := s.bits_z ++ [(v >>> 2) &&& 1]
          prev_sync_bit := some ((v >>> 3) &&& 1) }
      hs (fun e' he' => hd e' (by simp [he'])) ⟨_, rfl⟩
      (by
        show (s.bits_x ++ [(v >>> 0) &&& 1]).length + es.length ≤ 19
        simp only [List.length_cons] at hlen
        simp only [List.length_append, List.length_cons, List.length_nil]
        omega)
    obtain ⟨k1, k2, k3, k4, k5, k6, k7⟩ := key
    refine ⟨by simpa using k1, k2, ?_, ?_, ?_, k6, k7⟩
    · rw [k3]; simp [hv]
    · rw [k4]; simp [hv]
    · rw [k5]; simp [hv]

/-- C4: an emitted frame consumes exactly 20 consecutive samples from the
triggering rising edge (the trigger seeds the buffers, each later sample
appends one bit); a rising edge followed by 18 or fewer further samples
emits nothing; and the completing sample leaves the machine in `IDLE` with
all three bit buffers cleared and the output decoded from exactly those 20
bits over the window from the trigger's start time to the 20th sample's
end time. -/
theorem c4_frame_length (s : Hla) (hs : s.state = "IDLE")
    (hp : s.prev_sync_bit = some 0) :
    (∀ (e0 : InputFrame) (v0 : ℕ) (mids : List InputFrame),
      e0.type = "data" → e0.data = some v0 → (v0 >>> 3) &&& 1 = 1 →
      (∀ e ∈ mids, e.type = "data" ∧ ∃ v, e.data = some v) →
      mids.length ≤ 18 →
      (runDecode s (e0 :: mids)).2 = []) ∧
    (∀ (e0 eL : InputFrame) (v0 vL : ℕ) (mids : List InputFrame),
      e0.type = "data" → e0.data = some v0 → (v0 >>> 3) &&& 1 = 1 →
      (∀ e ∈ mids, e.type = "data" ∧ ∃ v, e.data = some v) →
      mids.length = 18 →
      eL.type = "data" → eL.data = some vL →
      (runDecode s (e0 :: (mids ++ [eL]))).1.state = "IDLE" ∧
      (runDecode s (e0 :: (mids ++ [eL]))).1.bits_x = [] ∧
      (runDecode s (e0 :: (mids ++ [eL]))).1.bits_y = [] ∧
      (runDecode s (e0 :: (mids ++ [eL]))).1.bits_z = [] ∧
      (runDecode s (e0 :: (mids ++ [eL]))).2 =
        (Hla._decode_channel ("X")
            (((v0 >>> 0) &&& 1) ::
              (mids.map (fun e => ((e.data.getD 0) >>> 0) &&& 1) ++
                [(vL >>> 0) &&& 1]))
            e0.start_time
            (e0.start_time + (eL.end_time - e0.start_time) / 3)).toList ++
        (Hla._decode_channel ("Y")
            (((v0 >>> 1) &&& 1) ::
              (mids.map (fun e => ((e.data.getD 0) >>> 1) &&& 1) ++
                [(vL >>> 1) &&& 1]))
            (e0.start_time + (eL.end_time - e0.start_time) / 3)
            (e0.start_time + (eL.end_time - e0.start_time) / 3 +
              (eL.end_time - e0.start_time) / 3)).toList ++
        (Hla._decode_channel ("Z")
            (((v0 >>> 2) &&& 1) ::
              (mids.map (fun e => ((e.data.getD 0) >>> 2) &&& 1) ++
                [(vL >>> 2) &&& 1]))
            (e0.start_time + (eL.end_time - e0.start_time) / 3 +
              (eL.end_time - e0.start_time) / 3)
            eL.end_time).toList) := by
  constructor
  · intro e0 v0 mids ht0 hd0 hsync hmids hlen
    rw [runDecode_cons, decode_idle_trigger s e0 v0 0 ht0 hd0 hp hs ⟨hsync, rfl⟩]
    have key := run_collect mids
      { s with
          state := "COLLECTING"
          bits_x := [(v0 >>> 0) &&& 1]
          bits_y := [(v0 >>> 1) &&& 1]
          bits_z := [(v0 >>> 2) &&& 1]
          frame_start_time := some e0.start_time
          prev_sync_bit := some ((v0 >>> 3) &&& 1) }
      rfl hmids ⟨_, rfl⟩
      (by
        show ([(v0 >>> 0) &&& 1] : List ℕ).length + mids.length ≤ 19
        simp only [List.length_cons, List.length_nil]
        omega)
    simpa using key.1
  · intro e0 eL v0 vL mids ht0 hd0 hsync hmids hlen htL hdL
    rw [runDecode_cons, decode_idle_trigger s e0 v0 0 ht0 hd0 hp hs ⟨hsync, rfl⟩]
    set s1 : Hla :=
      { s with
          state := "COLLECTING"
          bits_x := [(v0 >>> 0) &&& 1]
          bits_y := [(v0 >>> 1) &&& 1]
          bits_z := [(v0 >>> 2) &&& 1]
          frame_start_time := some e0.start_time
          prev_sync_bit := some ((v0 >>> 3) &&& 1) } with hs1
    rw [runDecode_append]
    have key := run_collect mids s1 (by rw [hs1]) hmids ⟨_, by rw [hs1]⟩
      (by
        rw [hs1]
        show ([(v0 >>> 0) &&& 1] : List ℕ).length + mids.length ≤ 19
        simp only [List.length_cons, List.length_nil]
        omega)
    obtain ⟨k1, k2, k3, k4, k5, k6, k7⟩ := key
    obtain ⟨qL, hqL⟩ := k7
    set s2 := (runDecode s1 mids).1 with hs2
    have hbx : s1.bits_x = [(v0 >>> 0) &&& 1] := by rw [hs1]
    have hby : s1.bits_y = [(v0 >>> 1) &&& 1] := by rw [hs1]
    have hbz : s1.bits_z = [(v0 >>> 2) &&& 1] := by rw [hs1]
    have hfst : s2.frame_start_time = some e0.start_time := by rw [k6, hs1]
    have hlen2 : s2.bits_x.length + 1 = 20 := by
      rw [k3, hbx]
      simp only [List.length_append, List.length_map, List.length_cons,
        List.length_nil]
      omega
    rw [runDecode_cons, decode_collect_done s2 eL vL qL htL hdL hqL k2 hlen2,
      runDecode_nil]
    refine ⟨rfl, rfl, rfl, rfl, ?_⟩
    rw [k1, k3, k4, k5, hfst, hbx, hby, hbz]
    dsimp only
    simp only [Option.getD_some, Option.getD_none, List.nil_append,
      List.append_nil]
    simp only [List.cons_append, List.nil_append]

/-- Witness for C4: a rising edge plus 5 samples emits nothing; a rising
edge plus 19 samples completes the frame back in IDLE. -/
theorem c4_frame_length_witness :
    (runDecode ⟨"IDLE", none, some 0, [], [], []⟩
        (⟨"data", 0, 1, some 15⟩ ::
          List.replicate 5 ⟨"data", 1, 2, some 0⟩)).2 = [] ∧
    (runDecode ⟨"IDLE", none, some 0, [], [], []⟩
        (⟨"data", 0, 1, some 15⟩ ::
          (List.replicate 18 ⟨"data", 1, 2, some 0⟩ ++
            [⟨"data", 19, 20, some 0⟩]))).1.state = "IDLE" := by
  constructor
  · exact (c4_frame_length ⟨"IDLE", none, some 0, [], [], []⟩ rfl rfl).1
      ⟨"data", 0, 1, some 15⟩ 15 (List.replicate 5 ⟨"data", 1, 2, some 0⟩)
      rfl rfl (by decide)
      (fun e he => by
        have h := List.eq_of_mem_replicate he
        subst h; exact ⟨rfl, 0, rfl⟩)
      (by decide)
  · exact ((c4_frame_length ⟨"IDLE", none, some 0, [], [], []⟩ rfl rfl).2
      ⟨"data", 0, 1, some 15⟩ ⟨"data", 19, 20, some 0⟩ 15 0
      (List.replicate 18 ⟨"data", 1, 2, some 0⟩)
      rfl rfl (by decide)
      (fun e he => by
        have h := List.eq_of_mem_replicate he
        subst h; exact ⟨rfl, 0, rfl⟩)
      (by decide) rfl rfl).1
